import Mathlib

/-!
Shallow embedding of the Crustocean SDK agent client
(`packages/sdk/src/index.js`, exercised by `examples/llm-agent.js`):
the `CrustoceanAgent` session class (constructor, connect, connectSocket,
join, joinAllMemberAgencies, send, on, off, getAgencies, getRecentMessages,
disconnect, connectAndJoin) and the `shouldRespond` helper.

Modelling conventions:
- JS strings are Lean `String`; a possibly-`null`/`undefined` string field is
  `Option String` (`none` = absent); JS truthiness of a string is
  "`some s` with `s ≠ \"\"`".
- Event handlers are opaque and identified by `Nat` tags; JS function
  identity (`===`) is `Nat` equality.
- The socket.io channel is modelled by its observable listener state: an
  ordered list of `(event, handler)` attachments plus a `connected` flag.
  `socket.on` appends, `socket.off(ev, h)` removes the first matching
  attachment (component-emitter semantics), and emitting event `e` fires the
  handlers attached for `e` in attachment order.
- The `listeners` registry is a JS `Map` from event name to an ordered
  array of handlers.  We model it as the flattened, insertion-ordered list
  of `(event, handler)` pairs: per-event handler order (the only order any
  observable behaviour depends on, since delivery is per event) is exactly
  the JS array order, `on` pushes, `off` splices the first `indexOf` hit.
- Network effects are explicit: fallible operations return `Except` and the
  list of channel emissions they performed; nondeterministic network
  outcomes (success/failure of fetches and of the join handshake) appear as
  parameters or as distinct constructors of a step relation.
-/

namespace Crustocean

/-! ## String helpers (JS primitives used by the SDK) -/

/-- Test whether `pat` occurs at the start of `l`. -/
def leadsWith : List Char → List Char → Bool
  | [], _ => true
  | _ :: _, [] => false
  | a :: as, b :: bs => a == b && leadsWith as bs

/-- Test whether `pat` occurs anywhere inside `l`
(JS `String.prototype.includes`). -/
def listContains (pat : List Char) : List Char → Bool
  | [] => leadsWith pat []
  | c :: rest => leadsWith pat (c :: rest) || listContains pat rest

/-- JS `s.includes(pat)`. -/
def strIncludes (s pat : String) : Bool := listContains pat.toList s.toList

/-- JS `s.toLowerCase()` (per-character lowering). -/
def strToLower (s : String) : String := ⟨s.toList.map Char.toLower⟩

/-- Head of a character list is `'/'`. -/
def headIsSlash : List Char → Bool
  | c :: _ => c == '/'
  | [] => false

/-- First two characters of a list are both `'/'`. -/
def headTwoAreSlashes : List Char → Bool
  | c1 :: c2 :: _ => c1 == '/' && c2 == '/'
  | _ => false

/-- Drop one leading `'/'` if present, else identity. -/
def dropLeadingSlash : List Char → List Char
  | c :: rest => if c == '/' then rest else c :: rest
  | [] => []

/-- JS `s.replace(/\/$/, '')` on the character list: drop one trailing
slash if present (the regex is not global and `$` anchors at the end, so
at most the one final slash is removed). -/
def replaceTrailingSlashList (l : List Char) : List Char :=
  (dropLeadingSlash l.reverse).reverse

/-- JS `apiUrl.replace(/\/$/, '')` — the constructor's base-URL normalisation. -/
def stripTrailingSlash (s : String) : String :=
  ⟨replaceTrailingSlashList s.toList⟩

/-- Whether a string ends with a trailing slash. -/
def endsWithSlash (s : String) : Bool := headIsSlash s.toList.reverse

/-- Whether a string ends with two slashes. -/
def endsWithDoubleSlash (s : String) : Bool := headTwoAreSlashes s.toList.reverse

/-- Every request URL in the class is the template
`` `${this.apiUrl}/${route}` `` where `route` starts with `api` (never with
a slash): e.g. `` `${this.apiUrl}/api/auth/agent` ``. -/
def deriveUrl (base route : String) : String := base ++ "/" ++ route

/-- The derived URL `base ++ "/" ++ route` has a double slash at the join
point exactly when the stored base ends in `'/'` (the template always
inserts one `'/'` and routes start with a letter). -/
def doubleSlashAtJoinPoint (base : String) : Bool := endsWithSlash base

/-! ## `shouldRespond` (index.js lines 101-106) -/

/-- An incoming message object; `content` is absent (`none`) when the field
is missing, `some ""` when present but empty. -/
structure Message where
  content : Option String
  sender_username : Option String := none
deriving Repr, DecidableEq

/-- The helper `shouldRespond(msg, agentUsername)`:
`if (!msg?.content || !agentUsername) return false;` then case-insensitive
`includes` of `"@" + agentUsername.toLowerCase()`. `msg` may be
`null`/`undefined` (`none`), `agentUsername` missing (`none`) or empty. -/
def shouldRespond (msg : Option Message) (agentUsername : Option String) : Bool :=
  match msg with
  | none => false
  | some m =>
    match m.content with
    | none => false
    | some c =>
      if c == "" then false
      else
        match agentUsername with
        | none => false
        | some u =>
          if u == "" then false
          else strIncludes (strToLower c) ("@" ++ strToLower u)

/-! ## `getRecentMessages` limit clamping (index.js lines 282-294) -/

/-- Options object of `getRecentMessages({limit = 50, before, mentions} = {})`. -/
structure RecentOpts where
  limit : Option Int := none
  before : Option String := none
  mentions : Option String := none
deriving Repr, DecidableEq

/-- The value sent as the `limit` query parameter:
`Math.min(limit, 100)` with destructuring default `limit = 50`. -/
def recentMessagesLimit (opts : RecentOpts) : Int :=
  min (opts.limit.getD 50) 100

/-! ## Session data model -/

/-- A directory record returned by the room-directory endpoint
(`GET /api/agencies`): `{id, slug, name, isMember, ...}`.  `slug` may be
absent on a raw record (`none`). -/
structure Agency where
  id : String
  slug : Option String := none
  isMember : Bool := false
deriving Repr, DecidableEq

/-- JS `a.id === x || a.slug === x` — the exact-match predicate `join` uses
with `Array.prototype.find` (a missing `slug` compares unequal to any
string argument). -/
def agencyMatches (x : String) (a : Agency) : Bool :=
  a.id == x || (match a.slug with | some s => s == x | none => false)

/-- JS `agencies.find((a) => a.id === x || a.slug === x)` — first match wins. -/
def findAgency (agencies : List Agency) (x : String) : Option Agency :=
  agencies.find? (agencyMatches x)

/-- JS `a.slug || a.id` — the identifier `joinAllMemberAgencies` attempts and
records (JS `||` falls through on a missing or empty slug). -/
def slugOrId (a : Agency) : String :=
  match a.slug with
  | some s => if s == "" then a.id else s
  | none => a.id

/-- Per-event handler list of an ordered `(event, handler)` pair list (the
JS `Map`'s array for event `e`, or a socket's attachments for `e`), in
insertion order. -/
def registryHandlers : List (String × Nat) → String → List Nat
  | [], _ => []
  | (k, x) :: rest, e =>
    if k == e then x :: registryHandlers rest e else registryHandlers rest e

/-- Remove the first pair equal to `(e, h)` (component-emitter `off`:
scan the callbacks, splice the first match). -/
def removeFirstPair (e : String) (h : Nat) : List (String × Nat) → List (String × Nat)
  | [] => []
  | p :: rest => if p == (e, h) then rest else p :: removeFirstPair e h rest

/-- Remove the first occurrence of `h` (JS `indexOf` + `splice(i, 1)`;
no-op when absent, i.e. `indexOf` returned `-1`). -/
def removeFirstNat (h : Nat) : List Nat → List Nat
  | [] => []
  | x :: rest => if x == h then rest else x :: removeFirstNat h rest

/-- The observable state of the socket.io channel handle: its `connected`
flag and the ordered `(event, handler)` attachments made through this
class.  `socket.on` appends; `socket.off(ev, h)` removes the first
matching attachment; emitting `e` fires the handlers attached for `e` in
attachment order. -/
structure Socket where
  connected : Bool
  attached : List (String × Nat)
deriving Repr, DecidableEq

/-- Handlers that fire on the socket when event `e` is emitted, in
attachment order (one call per attachment). -/
def fire (sk : Socket) (e : String) : List Nat :=
  registryHandlers sk.attached e

/-- The mutable fields of a `CrustoceanAgent` instance. -/
structure AgentState where
  apiUrl : String
  agentToken : String
  token : Option String
  user : Option String
  socket : Option Socket
  currentAgencyId : Option String
  listeners : List (String × Nat)
deriving Repr, DecidableEq

/-- The constructor (index.js lines 114-122): strips one trailing slash
from `apiUrl`, stores the agent token, nulls everything else. -/
def mkAgent (apiUrl agentToken : String) : AgentState :=
  { apiUrl := stripTrailingSlash apiUrl
    agentToken := agentToken
    token := none
    user := none
    socket := none
    currentAgencyId := none
    listeners := [] }

/-- JS `this.socket?.connected` — optional chaining: `false` when the
socket is `null`. -/
def socketConnected (s : AgentState) : Bool :=
  match s.socket with
  | some sk => sk.connected
  | none => false

/-- JS truthiness of the nullable `currentAgencyId` string. -/
def agencyTruthy (s : AgentState) : Bool :=
  match s.currentAgencyId with
  | some a => a != ""
  | none => false

/-! ## Session operations -/

/-- The payload `send` emits as the `send-message` event. -/
structure SendPayload where
  agencyId : String
  content : String
  type : Option String := none
  metadata : Option String := none
deriving Repr, DecidableEq

/-- Options argument of `send` (metadata is passed through opaquely;
we keep it as an uninterpreted string). -/
structure SendOptions where
  type : Option String := none
  metadata : Option String := none
deriving Repr, DecidableEq

/-- Result of a call: the thrown-or-returned value, the channel emissions
it performed (in order), and the state it leaves behind. -/
structure SendOutcome where
  result : Except String Unit
  emissions : List SendPayload
  state : AgentState
deriving Repr

/-- The method `send(content, options)` (index.js lines 204-215): throws before any
emission unless `this.socket?.connected && this.currentAgencyId`; on
success builds the payload (content coerced and trimmed, optional type and
metadata copied when present) and emits exactly one `send-message`. -/
def send (s : AgentState) (content : String) (options : SendOptions) : SendOutcome :=
  if ¬ (socketConnected s && agencyTruthy s) then
    { result := .error "Not connected or no agency joined. Call join() first."
      emissions := []
      state := s }
  else
    match s.currentAgencyId with
    | some aid =>
        { result := .ok ()
          emissions := [{ agencyId := aid
                          content := content.trim
                          type := options.type
                          metadata := options.metadata }]
          state := s }
    | none =>
        { result := .error "Not connected or no agency joined. Call join() first."
          emissions := []
          state := s }

/-- The identifier-resolution and emission behaviour of `join` (index.js
lines 167-190), given the directory listing `getAgencies` returned:
no directory match throws `Agency not found` with no `join-agency`
emission; a match emits exactly one `join-agency` request carrying the
matched record's `id`.  The emissions are the `agencyId` values sent. -/
def joinAttempt (agencies : List Agency) (x : String) :
    Except String String × List String :=
  match findAgency agencies x with
  | none => (.error ("Agency not found: " ++ x), [])
  | some a => (.ok a.id, [a.id])

/-- The loop of `joinAllMemberAgencies` (index.js lines 222-235) with the per-record
join outcome abstracted by the oracle `ok` (the try/catch makes a failed
join a logged warning, never a thrown error): the loop walks the
membership-filtered directory in order, one join per record, pushing
`a.slug || a.id` on success.  Returns (identifiers attempted in order,
identifiers successfully joined in order). -/
def joinAllLoop (ok : Agency → Bool) : List Agency → List String × List String
  | [] => ([], [])
  | a :: rest =>
    let (att, joined) := joinAllLoop ok rest
    (slugOrId a :: att, if ok a then slugOrId a :: joined else joined)

/-- The method `joinAllMemberAgencies()` over a directory listing. -/
def joinAllMemberAgencies (agencies : List Agency) (ok : Agency → Bool) :
    List String × List String :=
  joinAllLoop ok (agencies.filter (fun a => a.isMember))

/-- The method `on(event, handler)` (index.js lines 243-247): always push onto the
registry's array for `event`; additionally `socket.on` when a socket
handle exists (connected or not — the check is `if (this.socket)`). -/
def onEvent (s : AgentState) (e : String) (h : Nat) : AgentState :=
  { s with
    listeners := s.listeners ++ [(e, h)]
    socket := s.socket.map (fun sk => { sk with attached := sk.attached ++ [(e, h)] }) }

/-- The method `off(event, handler)` (index.js lines 252-259): splice the first
`indexOf` hit out of the event's registry array; `socket.off` when a
socket handle exists. -/
def offEvent (s : AgentState) (e : String) (h : Nat) : AgentState :=
  { s with
    listeners := removeFirstPair e h s.listeners
    socket := s.socket.map (fun sk => { sk with attached := removeFirstPair e h sk.attached }) }

/-- A successful `connect()` (index.js lines 128-142): stores the exchanged
JWT and identity.  (A failed `connect()` throws after assigning nothing.) -/
def connectOk (s : AgentState) (t u : String) : AgentState :=
  { s with token := some t, user := some u }

/-- A successful `connectSocket()` (index.js lines 148-161): runs
`connect()` first when `this.token` is null, then replaces `this.socket`
with a fresh handle that carries no attachments from this class and
reports connected.  (The promise's internal `connect`/`connect_error`
listeners are not user-visible attachments.) -/
def connectSocketOk (s : AgentState) (t u : String) : AgentState :=
  let s' := if s.token = none then connectOk s t u else s
  { s' with socket := some { connected := true, attached := [] } }

/-- The listener re-attachment loop of `connectAndJoin` (index.js lines
314-316): `for (const [ev, handlers] of this.listeners) for (const h of
handlers) this.socket.on(ev, h)` — every registry entry is attached to the
current socket, per-event in registration order. -/
def reattachAll (s : AgentState) : AgentState :=
  { s with socket := s.socket.map (fun sk => { sk with attached := sk.attached ++ s.listeners }) }

/-- The state mutation of a join handshake acknowledged with `agencyId`
(the `agency-joined` handler, index.js lines 177-181): records the current
agency.  The attempt's two one-shot listeners cancel out (both are removed
by the first event; modelled in `JoinWait` below), so the socket's
user-visible attachments are unchanged. -/
def joinAck (s : AgentState) (agencyId : String) : AgentState :=
  { s with currentAgencyId := some agencyId }

/-- The method `disconnect()` (index.js lines 299-305): drops the socket handle and
clears the current agency; keeps `token`, `user` and the registry. -/
def disconnect (s : AgentState) : AgentState :=
  { s with socket := none, currentAgencyId := none }

/-- A fully successful `connectAndJoin(agencyIdOrSlug)` (index.js lines
311-318): `connect()` (unconditional), `connectSocket()` (token already
present), bulk re-attachment of the registry, then `join` acknowledged
with `agencyId`. -/
def connectAndJoinOk (s : AgentState) (t u agencyId : String) : AgentState :=
  joinAck (reattachAll (connectSocketOk (connectOk s t u) t u)) agencyId

/-! ## The join handshake's one-shot listener pair (index.js lines 176-189)

`join` installs `socket.once('agency-joined', onJoined)` and
`socket.once('error', onErr)` around one `join-agency` emission.  `once`
removes the firing listener itself; `onJoined` additionally does
`socket.off('error', onErr)` and `onErr` does
`socket.off('agency-joined', onJoined)`.  The promise executor settles at
most once. -/

/-- Channel events relevant to one pending join attempt: the server's
acknowledgment, an error event (`none` payload = message absent, giving
the generic `"Join failed"`), or any other traffic. -/
inductive ChEvent where
  | agencyJoined (agencyId : String) (members : List String)
  | errorEv (message : Option String)
  | other (name : String)
deriving Repr, DecidableEq

/-- One pending join attempt: whether each of its two listeners is still
installed on the socket, and the attempt's promise (`none` = pending,
`some (.ok _)` = resolved with the ack payload, `some (.error _)` =
rejected). -/
structure JoinWait where
  onJoinedActive : Bool
  onErrActive : Bool
  result : Option (Except String (String × List String))
deriving Repr

/-- State of the attempt right after `socket.emit('join-agency', ...)`:
both one-shot listeners installed, promise pending. -/
def joinWaitInit : JoinWait :=
  { onJoinedActive := true, onErrActive := true, result := none }

/-- Settle a promise: a second resolution attempt is a no-op. -/
def settle (r : Option (Except String (String × List String)))
    (v : Except String (String × List String)) :
    Option (Except String (String × List String)) :=
  match r with
  | some _ => r
  | none => some v

/-- The channel delivers one event to the attempt's listeners. -/
def joinWaitStep (w : JoinWait) (ev : ChEvent) : JoinWait :=
  match ev with
  | .agencyJoined aid members =>
    if w.onJoinedActive then
      { onJoinedActive := false
        onErrActive := false
        result := settle w.result (.ok (aid, members)) }
    else w
  | .errorEv msg =>
    if w.onErrActive then
      { onJoinedActive := false
        onErrActive := false
        result := settle w.result (.error (msg.getD "Join failed")) }
    else w
  | .other _ => w

/-- Whether an event is one of the attempt's two settling events. -/
def settlingEvent : ChEvent → Bool
  | .agencyJoined _ _ => true
  | .errorEv _ => true
  | .other _ => false

/-! ## Reachable session states (for the token/currentAgencyId invariant)

One constructor per way a public operation (or a failing prefix of one)
can mutate the instance fields.  `this.token` is assigned only by the
constructor (`null`) and by a successful `connect()` (the exchanged JWT),
so no step ever returns it to `null`.  `this.currentAgencyId` is assigned
only by the `agency-joined` handler inside `join` — which runs after
`getAgencies()` (and hence a completed token exchange) — and by
`disconnect()` (`null`). -/

/-- One observable state transition of a `CrustoceanAgent`. -/
inductive Step : AgentState → AgentState → Prop
  /-- A `connect()` call succeeded: token and identity stored. -/
  | connectOk (s : AgentState) (t u : String) : Step s (connectOk s t u)
  /-- A fetch-backed call threw before assigning anything
  (failed `connect`, failed `getAgencies` with token present,
  failed `getRecentMessages`, `join` rejected before mutating,
  failed history fetch, a thrown `send`, ...). -/
  | noMutation (s : AgentState) : Step s s
  /-- A `connectSocket()` call settled: token ensured (fresh exchange when it was
  null), fresh socket handle stored; `c` is the `connected` outcome
  (`false` when the promise rejected via `connect_error`). -/
  | connectSocketDone (s : AgentState) (t u : String) (c : Bool) :
      Step s { (if s.token = none then connectOk s t u else s) with
               socket := some { connected := c, attached := [] } }
  /-- A `getAgencies()` call (or any operation that begins with it) performed its
  `if (!this.token) await this.connect()` guard and succeeded. -/
  | ensureToken (s : AgentState) (t u : String) :
      Step s (if s.token = none then connectOk s t u else s)
  /-- A `join` attempt was acknowledged: `getAgencies` had ensured the
  token beforehand, then the `agency-joined` handler stored `agencyId`. -/
  | joinOk (s : AgentState) (t u agencyId : String) :
      Step s (joinAck (if s.token = none then connectOk s t u else s) agencyId)
  /-- An `on(event, handler)` call. -/
  | onEvent (s : AgentState) (e : String) (h : Nat) : Step s (onEvent s e h)
  /-- An `off(event, handler)` call. -/
  | offEvent (s : AgentState) (e : String) (h : Nat) : Step s (offEvent s e h)
  /-- A `send` call succeeded: emission only, no field assigned. -/
  | sendOk (s : AgentState) : Step s s
  /-- A `disconnect()` call. -/
  | disconnect (s : AgentState) : Step s (disconnect s)
  /-- A `connectAndJoin` call ran to completion. -/
  | connectAndJoinOk (s : AgentState) (t u agencyId : String) :
      Step s (connectAndJoinOk s t u agencyId)
  /-- The bulk re-attachment loop inside `connectAndJoin` (when a later
  stage of that composite fails, the loop's effect still happened). -/
  | reattach (s : AgentState) : Step s (reattachAll s)

/-- States reachable from some constructor call by the class's operations. -/
inductive Reachable : AgentState → Prop
  | init (apiUrl agentToken : String) : Reachable (mkAgent apiUrl agentToken)
  | step {s s' : AgentState} : Reachable s → Step s s' → Reachable s'

/-! # Theorems -/

/-! ## Helper lemmas about the URL normalisation -/

/-- Dropping a leading slash turns "head is a slash" into "the first two
characters were slashes". -/
theorem headIsSlash_dropLeadingSlash (m : List Char) :
    headIsSlash (dropLeadingSlash m) = headTwoAreSlashes m := by
  cases m with
  | nil => rfl
  | cons c rest =>
    by_cases hc : c = '/'
    · subst hc
      cases rest with
      | nil => rfl
      | cons c2 rest2 => simp [dropLeadingSlash, headIsSlash, headTwoAreSlashes]
    · cases rest with
      | nil => simp [dropLeadingSlash, headIsSlash, headTwoAreSlashes, hc]
      | cons c2 rest2 => simp [dropLeadingSlash, headIsSlash, headTwoAreSlashes, hc]

/-- The stored base ends in a slash exactly when the constructor argument
ended in two slashes. -/
theorem endsWithSlash_stripTrailingSlash (s : String) :
    endsWithSlash (stripTrailingSlash s) = endsWithDoubleSlash s := by
  unfold endsWithSlash stripTrailingSlash endsWithDoubleSlash replaceTrailingSlashList
  rw [show (String.mk ((dropLeadingSlash s.toList.reverse).reverse)).toList
        = (dropLeadingSlash s.toList.reverse).reverse from rfl]
  rw [List.reverse_reverse]
  exact headIsSlash_dropLeadingSlash _

/-- C10: `shouldRespond msg agentUsername` is `true` exactly when `msg` is
present with a nonempty `content` string, `agentUsername` is a present
nonempty string, and the lowercased content contains `"@"` followed by the
lowercased username; every other input yields `false` (the function is
total, so nothing throws). -/
theorem C10_shouldRespond_iff (msg : Option Message) (agentUsername : Option String) :
    shouldRespond msg agentUsername = true ↔
      ∃ m c u, msg = some m ∧ m.content = some c ∧ c ≠ "" ∧
        agentUsername = some u ∧ u ≠ "" ∧
        strIncludes (strToLower c) ("@" ++ strToLower u) = true := by
  cases msg with
  | none => simp [shouldRespond]
  | some m =>
    cases hc : m.content with
    | none => simp [shouldRespond, hc]
    | some c =>
      cases agentUsername with
      | none => simp [shouldRespond, hc]
      | some u =>
        by_cases hce : c = ""
        · subst hce; simp [shouldRespond, hc]
        · by_cases hue : u = ""
          · subst hue; simp [shouldRespond, hc, hce]
          · simp [shouldRespond, hc, hce, hue]

/-- C7: the `limit` query parameter of `getRecentMessages` is
`min limit 100`, defaulting to `50` when the option is omitted; in
particular `limit: 500` is sent as `100`, never `500`. -/
theorem C7_limit_clamped (opts : RecentOpts) (l : Int) :
    (opts.limit = some l → recentMessagesLimit opts = min l 100)
    ∧ (opts.limit = none → recentMessagesLimit opts = 50)
    ∧ recentMessagesLimit { limit := some 500 } = 100
    ∧ recentMessagesLimit { limit := some 500 } ≠ 500 := by
  refine ⟨?_, ?_, by decide, by decide⟩
  · intro h; simp [recentMessagesLimit, h]
  · intro h; simp only [recentMessagesLimit, h]; decide

/-- Witness for C7 at the spec's concrete input `{limit: 500}` and at the
omitted-option default. -/
theorem C7_witness :
    recentMessagesLimit { limit := some 500 } = min 500 100
    ∧ recentMessagesLimit {} = 50 := by
  refine ⟨?_, ?_⟩
  · simpa using (C7_limit_clamped { limit := some 500 } 500).1 rfl
  · exact (C7_limit_clamped {} 0).2.1 rfl

/-- C9 counterexample: the constructor strips only ONE trailing slash
(`/\/$/` is anchored and not global), so for the input `"https://x//"` the
stored base is `"https://x/"` and the derived request URL has a double
slash at the join point — the claim's "for every apiUrl input" fails. -/
theorem C9_counterexample :
    stripTrailingSlash "https://x//" = "https://x/"
    ∧ doubleSlashAtJoinPoint (stripTrailingSlash "https://x//") = true
    ∧ deriveUrl (stripTrailingSlash "https://x//") "api/agencies"
        = "https://x//api/agencies" := by
  exact ⟨by decide, by decide, by decide⟩

/-- C9 (amended): `'https://x/'` is stored as `'https://x'`, and for every
apiUrl input that does not already end in a double slash, every derived
request URL (`storedBase ++ "/" ++ route`) avoids a double slash at the
join point. -/
theorem C9_strip_round_trip (input : String) (h : endsWithDoubleSlash input = false) :
    stripTrailingSlash "https://x/" = "https://x"
    ∧ doubleSlashAtJoinPoint (stripTrailingSlash input) = false := by
  refine ⟨by decide, ?_⟩
  unfold doubleSlashAtJoinPoint
  rw [endsWithSlash_stripTrailingSlash]
  exact h

/-- Witness for C9's amended statement at the spec's input `'https://x/'`. -/
theorem C9_witness :
    stripTrailingSlash "https://x/" = "https://x"
    ∧ doubleSlashAtJoinPoint (stripTrailingSlash "https://x/") = false :=
  C9_strip_round_trip "https://x/" (by decide)

/-- C1: whenever the socket is absent or not connected, or no agency is
joined, `send` throws its precondition error, performs no `send-message`
emission, and leaves the session state unchanged. -/
theorem C1_send_requires_room (s : AgentState) (content : String) (options : SendOptions)
    (h : socketConnected s = false ∨ s.currentAgencyId = none) :
    (send s content options).result
        = .error "Not connected or no agency joined. Call join() first."
    ∧ (send s content options).emissions = []
    ∧ (send s content options).state = s := by
  have hcond : (socketConnected s && agencyTruthy s) = false := by
    rcases h with h | h
    · simp [h]
    · simp [agencyTruthy, h]
  simp [send, hcond]

/-- Witness for C1: a freshly constructed session (no socket, no agency)
rejects `send` with no emission and no state change. -/
theorem C1_witness :
    (send (mkAgent "https://x" "tok") "hi" {}).emissions = []
    ∧ (send (mkAgent "https://x" "tok") "hi" {}).state = mkAgent "https://x" "tok" := by
  have h := C1_send_requires_room (mkAgent "https://x" "tok") "hi" {} (Or.inr rfl)
  exact ⟨h.2.1, h.2.2⟩

/-! ## C2: identifier resolution in `join` -/

/-- JS `Array.prototype.find` semantics: a hit satisfies the predicate and is
the first element to do so. -/
theorem find?_first_match {α : Type} (p : α → Bool) (l : List α) (a : α)
    (h : l.find? p = some a) :
    p a = true ∧ ∃ l1 l2, l = l1 ++ a :: l2 ∧ ∀ b ∈ l1, p b = false := by
  induction l with
  | nil => simp [List.find?] at h
  | cons x rest ih =>
    by_cases hx : p x = true
    · rw [List.find?_cons_of_pos _ hx] at h
      cases h
      exact ⟨hx, [], rest, rfl, by simp⟩
    · have hx' : p x = false := by simpa using hx
      rw [List.find?_cons_of_neg _ (by simp [hx'])] at h
      obtain ⟨hpa, l1, l2, heq, hall⟩ := ih h
      refine ⟨hpa, x :: l1, l2, by rw [heq]; rfl, ?_⟩
      intro b hb
      rcases List.mem_cons.mp hb with hb | hb
      · subst hb; exact hx'
      · exact hall b hb

/-- C2: `join`'s resolution against the directory listing is an exact
match on `id` or `slug`, first record wins; with no match the call throws
`Agency not found` and emits nothing over the channel; with a match the
single `join-agency` emission carries the matched record's `id`. -/
theorem C2_join_resolution (agencies : List Agency) (x : String) :
    ((∀ a ∈ agencies, agencyMatches x a = false) →
        joinAttempt agencies x = (.error ("Agency not found: " ++ x), []))
    ∧ (∀ a, findAgency agencies x = some a →
        agencyMatches x a = true
        ∧ (∃ l1 l2, agencies = l1 ++ a :: l2 ∧ ∀ b ∈ l1, agencyMatches x b = false)
        ∧ joinAttempt agencies x = (.ok a.id, [a.id])) := by
  constructor
  · intro hnone
    have hfind : findAgency agencies x = none := by
      unfold findAgency
      rw [List.find?_eq_none]
      intro a ha
      simp [hnone a ha]
    simp [joinAttempt, hfind]
  · intro a hfind
    obtain ⟨hp, l1, l2, heq, hall⟩ := find?_first_match _ _ _ hfind
    exact ⟨hp, ⟨l1, l2, heq, hall⟩, by simp [joinAttempt, hfind]⟩

/-- The spec's example directory record `{id:'r1', slug:'lobby'}`. -/
def lobbyAgency : Agency := { id := "r1", slug := some "lobby", isMember := true }

/-- Witness for C2 at the spec's inputs: `join('nope')` emits nothing and
fails; `join('lobby')` emits the matched id `'r1'`. -/
theorem C2_witness :
    joinAttempt [lobbyAgency] "nope" = (.error "Agency not found: nope", [])
    ∧ joinAttempt [lobbyAgency] "lobby" = (.ok "r1", ["r1"]) := by
  constructor
  · exact (C2_join_resolution [lobbyAgency] "nope").1 (by decide)
  · exact ((C2_join_resolution [lobbyAgency] "lobby").2 lobbyAgency (by decide)).2.2

/-- C3: `joinAllMemberAgencies` attempts exactly the membership-flagged
records in directory order (one sequential join each, next loop iteration
only after the previous `await` settles — the structural recursion of
`joinAllLoop`), catches per-room failures without aborting, and returns
exactly the identifiers whose join succeeded, in attempt order. -/
theorem C3_joinAll_filters_and_returns (agencies : List Agency) (ok : Agency → Bool) :
    (joinAllMemberAgencies agencies ok).1
        = (agencies.filter (fun a => a.isMember)).map slugOrId
    ∧ (joinAllMemberAgencies agencies ok).2
        = ((agencies.filter (fun a => a.isMember)).filter ok).map slugOrId := by
  unfold joinAllMemberAgencies
  generalize (agencies.filter fun a => a.isMember) = m
  induction m with
  | nil => exact ⟨rfl, rfl⟩
  | cons a rest ih =>
    by_cases h : ok a = true
    · simp [joinAllLoop, List.filter_cons, h, ih.1, ih.2]
    · have h' : ok a = false := by simpa using h
      simp [joinAllLoop, List.filter_cons, h', ih.1, ih.2]

/-! ## C5: the join handshake's listeners are one-shot -/

/-- Once both of the attempt's listeners are removed, channel events no
longer change the attempt's state at all. -/
theorem joinWaitStep_inactive (w : JoinWait) (hj : w.onJoinedActive = false)
    (he : w.onErrActive = false) (ev : ChEvent) : joinWaitStep w ev = w := by
  cases ev <;> simp [joinWaitStep, hj, he]

/-- Folding any later traffic over a listener-free attempt is a no-op. -/
theorem joinWait_foldl_inactive (later : List ChEvent) (w : JoinWait)
    (hj : w.onJoinedActive = false) (he : w.onErrActive = false) :
    later.foldl joinWaitStep w = w := by
  induction later with
  | nil => rfl
  | cons ev rest ih => rw [List.foldl_cons, joinWaitStep_inactive w hj he ev]; exact ih

/-- C5: after the first settling channel event (`agency-joined` or
`error`) of a join attempt, both of the attempt's listeners are removed
and its promise is settled; no later event sequence can change the
settled result. -/
theorem C5_join_listeners_one_shot (ev : ChEvent) (hev : settlingEvent ev = true)
    (later : List ChEvent) :
    (joinWaitStep joinWaitInit ev).onJoinedActive = false
    ∧ (joinWaitStep joinWaitInit ev).onErrActive = false
    ∧ (joinWaitStep joinWaitInit ev).result.isSome = true
    ∧ (later.foldl joinWaitStep (joinWaitStep joinWaitInit ev)).result
        = (joinWaitStep joinWaitInit ev).result := by
  cases ev with
  | agencyJoined aid members =>
    refine ⟨rfl, rfl, rfl, ?_⟩
    rw [joinWait_foldl_inactive later _ rfl rfl]
  | errorEv msg =>
    refine ⟨rfl, rfl, rfl, ?_⟩
    rw [joinWait_foldl_inactive later _ rfl rfl]
  | other name => simp [settlingEvent] at hev

/-- Witness for C5: a join acknowledged with `r1` ignores a later
error/ack pair — the promise keeps its first resolution. -/
theorem C5_witness :
    ([ChEvent.errorEv (some "boom"), ChEvent.agencyJoined "r2" []].foldl joinWaitStep
        (joinWaitStep joinWaitInit (ChEvent.agencyJoined "r1" ["alice"]))).result
      = (joinWaitStep joinWaitInit (ChEvent.agencyJoined "r1" ["alice"])).result :=
  (C5_join_listeners_one_shot (ChEvent.agencyJoined "r1" ["alice"]) (by decide)
      [ChEvent.errorEv (some "boom"), ChEvent.agencyJoined "r2" []]).2.2.2

/-! ## C8: `off` removes only the first-matching registration -/

/-- The `BEq` on pairs is componentwise. -/
theorem prodBeqDef (k e : String) (x h : Nat) :
    ((k, x) == (e, h)) = (k == e && x == h) := rfl

/-- The map `registryHandlers` distributes over list append. -/
theorem registryHandlers_append (l1 l2 : List (String × Nat)) (e : String) :
    registryHandlers (l1 ++ l2) e = registryHandlers l1 e ++ registryHandlers l2 e := by
  induction l1 with
  | nil => rfl
  | cons p rest ih =>
    obtain ⟨k, x⟩ := p
    by_cases hk : k = e
    · subst hk; simp [registryHandlers, ih]
    · simp [registryHandlers, hk, ih]

/-- Removing the first `(e, h)` pair removes exactly the first occurrence
of `h` from `e`'s per-event list. -/
theorem registryHandlers_removeFirstPair_same (reg : List (String × Nat)) (e : String) (h : Nat) :
    registryHandlers (removeFirstPair e h reg) e
      = removeFirstNat h (registryHandlers reg e) := by
  induction reg with
  | nil => rfl
  | cons p rest ih =>
    obtain ⟨k, x⟩ := p
    by_cases hk : k = e
    · subst hk
      by_cases hx : x = h
      · subst hx; simp [removeFirstPair, registryHandlers, removeFirstNat, prodBeqDef]
      · simp [removeFirstPair, registryHandlers, removeFirstNat, prodBeqDef, hx, ih]
    · simp [removeFirstPair, registryHandlers, removeFirstNat, prodBeqDef, hk, ih]

/-- Removing the first `(e, h)` pair leaves every other event's list
unchanged. -/
theorem registryHandlers_removeFirstPair_other (reg : List (String × Nat)) (e : String)
    (h : Nat) (e' : String) (hne : e' ≠ e) :
    registryHandlers (removeFirstPair e h reg) e' = registryHandlers reg e' := by
  induction reg with
  | nil => rfl
  | cons p rest ih =>
    obtain ⟨k, x⟩ := p
    by_cases hk : k = e
    · subst hk
      by_cases hx : x = h
      · subst hx; simp [removeFirstPair, registryHandlers, prodBeqDef, Ne.symm hne]
      · simp [removeFirstPair, registryHandlers, prodBeqDef, hx, ih]
    · simp [removeFirstPair, registryHandlers, prodBeqDef, hk, ih]

/-- Removing the first occurrence of `h` from a list that first reaches
`h` after an `h`-free block drops exactly that occurrence. -/
theorem removeFirstNat_across (h : Nat) (l rest : List Nat) (hnot : h ∉ l) :
    removeFirstNat h (l ++ h :: rest) = l ++ rest := by
  induction l with
  | nil => simp [removeFirstNat]
  | cons x xs ih =>
    have hx : ¬ x = h := fun he => hnot (he ▸ List.mem_cons_self x xs)
    have hxs : h ∉ xs := fun hm => hnot (List.mem_cons_of_mem x hm)
    simp [removeFirstNat, hx, ih hxs]

/-- The net effect of `on(e, h)`, `on(e, h)`, `off(e, h)` on an `(event,
handler)` pair list whose `e`-list does not yet hold `h`: exactly one new
registration of `h` survives. -/
theorem registry_on_on_off (reg : List (String × Nat)) (e : String) (h : Nat)
    (hnot : h ∉ registryHandlers reg e) :
    registryHandlers (removeFirstPair e h ((reg ++ [(e, h)]) ++ [(e, h)])) e
      = registryHandlers reg e ++ [h] := by
  rw [registryHandlers_removeFirstPair_same, registryHandlers_append, registryHandlers_append]
  have hsingle : registryHandlers [(e, h)] e = [h] := by simp [registryHandlers]
  rw [hsingle, List.append_assoc]
  simpa using removeFirstNat_across h _ [h] hnot

/-- C8: `off(event, handler)` removes exactly the first-matching instance
from that event's registry list, leaves every other event's list in
place, and after two `on(e, h)` registrations followed by one `off(e, h)`
exactly one registration of `h` remains — on the registry and, when a
socket is attached, on the live channel, so `h` still fires once per
subsequent emission of `e`. -/
theorem C8_off_first_match (s : AgentState) (e : String) (h : Nat) :
    (registryHandlers (offEvent s e h).listeners e
        = removeFirstNat h (registryHandlers s.listeners e))
    ∧ (∀ e', e' ≠ e →
        registryHandlers (offEvent s e h).listeners e'
          = registryHandlers s.listeners e')
    ∧ (h ∉ registryHandlers s.listeners e →
        registryHandlers (offEvent (onEvent (onEvent s e h) e h) e h).listeners e
          = registryHandlers s.listeners e ++ [h])
    ∧ (∀ sk, s.socket = some sk → h ∉ fire sk e →
        ∃ sk', (offEvent (onEvent (onEvent s e h) e h) e h).socket = some sk'
          ∧ fire sk' e = fire sk e ++ [h]) := by
  refine ⟨?_, ?_, ?_, ?_⟩
  · exact registryHandlers_removeFirstPair_same s.listeners e h
  · intro e' hne
    exact registryHandlers_removeFirstPair_other s.listeners e h e' hne
  · intro hnot
    exact registry_on_on_off s.listeners e h hnot
  · intro sk hsk hnot
    refine ⟨{ sk with attached := removeFirstPair e h ((sk.attached ++ [(e, h)]) ++ [(e, h)]) },
      ?_, ?_⟩
    · simp [offEvent, onEvent, hsk]
    · exact registry_on_on_off sk.attached e h hnot

/-- A session with a fresh connected socket and empty registry, for the
C8 witness. -/
def c8State : AgentState :=
  { mkAgent "https://x" "tok" with socket := some { connected := true, attached := [] } }

/-- Witness for C8: two `on('message', 7)` then one `off('message', 7)`
leave exactly one registration, and the live socket fires `7` exactly
once per emission. -/
theorem C8_witness :
    registryHandlers
        (offEvent (onEvent (onEvent c8State "message" 7) "message" 7) "message" 7).listeners
        "message" = [7]
    ∧ ∃ sk', (offEvent (onEvent (onEvent c8State "message" 7) "message" 7) "message" 7).socket
          = some sk' ∧ fire sk' "message" = [7] := by
  constructor
  · have h3 := (C8_off_first_match c8State "message" 7).2.2.1 (by decide)
    simpa using h3
  · have h4 := (C8_off_first_match c8State "message" 7).2.2.2
      { connected := true, attached := [] } rfl (by decide)
    obtain ⟨sk', hsk', hf⟩ := h4
    exact ⟨sk', hsk', by simpa using hf⟩

/-! ## C4: every registered listener reaches the fresh channel exactly once -/

/-- Registering handlers on a socketless session only grows the registry,
in call order. -/
theorem foldl_onEvent_listeners (regs : List (String × Nat)) (s : AgentState)
    (hsock : s.socket = none) :
    (regs.foldl (fun st p => onEvent st p.1 p.2) s).listeners = s.listeners ++ regs
    ∧ (regs.foldl (fun st p => onEvent st p.1 p.2) s).socket = none := by
  induction regs generalizing s with
  | nil => exact ⟨by simp, hsock⟩
  | cons p rest ih =>
    obtain ⟨e, h⟩ := p
    have h1 : (onEvent s e h).socket = none := by simp [onEvent, hsock]
    have hrec := ih (onEvent s e h) h1
    rw [List.foldl_cons]
    refine ⟨?_, hrec.2⟩
    rw [hrec.1]
    simp [onEvent]

/-- Field values after a fully successful `connectAndJoin`: the fresh
socket carries exactly the registry's attachments, the registry itself is
untouched, the acknowledged agency is current, the fresh JWT is stored. -/
theorem connectAndJoinOk_fields (s : AgentState) (t u aid : String) :
    (connectAndJoinOk s t u aid).socket
        = some { connected := true, attached := s.listeners }
    ∧ (connectAndJoinOk s t u aid).listeners = s.listeners
    ∧ (connectAndJoinOk s t u aid).currentAgencyId = some aid
    ∧ (connectAndJoinOk s t u aid).token = some t := by
  unfold connectAndJoinOk joinAck reattachAll connectSocketOk connectOk
  simp

/-- C4: for any sequence of `on(event, handler)` registrations on a fresh
session followed by a successful `connectAndJoin`, the new channel's
per-event listener list is exactly the registered list — each registration
attached exactly once, firing once per emission in registration order; and
from ANY session state, `disconnect()` followed by `connectAndJoin()`
re-attaches exactly the registry to the fresh channel, without
duplication. -/
theorem C4_reattach_exactly_once (apiUrl agentToken : String)
    (regs : List (String × Nat)) (t u aid e : String) :
    (∃ sk, (connectAndJoinOk
          (regs.foldl (fun st p => onEvent st p.1 p.2) (mkAgent apiUrl agentToken))
          t u aid).socket = some sk
        ∧ sk.connected = true
        ∧ fire sk e = registryHandlers regs e)
    ∧ (∀ s : AgentState,
        ∃ sk, (connectAndJoinOk (disconnect s) t u aid).socket = some sk
          ∧ fire sk e = registryHandlers s.listeners e) := by
  constructor
  · have hfold := foldl_onEvent_listeners regs (mkAgent apiUrl agentToken) rfl
    obtain ⟨hcaj1, -, -, -⟩ := connectAndJoinOk_fields
        (regs.foldl (fun st p => onEvent st p.1 p.2) (mkAgent apiUrl agentToken)) t u aid
    refine ⟨_, hcaj1, rfl, ?_⟩
    show registryHandlers
        (regs.foldl (fun st p => onEvent st p.1 p.2) (mkAgent apiUrl agentToken)).listeners e
      = registryHandlers regs e
    rw [hfold.1]
    rfl
  · intro s
    obtain ⟨hcaj1, -, -, -⟩ := connectAndJoinOk_fields (disconnect s) t u aid
    exact ⟨_, hcaj1, rfl⟩

/-! ## C6: a joined room implies a completed token exchange -/

/-- C6: in every reachable session state, a non-null `currentAgencyId`
implies a non-null session token: `this.token` is assigned only at
construction (`null`) and by a successful token exchange, and
`currentAgencyId` is only set by a join acknowledgment, which the code
reaches only after `getAgencies()` has ensured the exchange. -/
theorem C6_token_invariant (s : AgentState) (hreach : Reachable s) :
    s.currentAgencyId.isSome = true → s.token.isSome = true := by
  induction hreach with
  | init apiUrl agentToken => intro hj; simp [mkAgent] at hj
  | @step s0 s' hr hs ih =>
    cases hs with
    | connectOk t u => intro _; rfl
    | noMutation => exact ih
    | connectSocketDone t u c =>
      by_cases ht : s0.token = none
      · rw [if_pos ht]; intro _; rfl
      · rw [if_neg ht]; exact ih
    | ensureToken t u =>
      by_cases ht : s0.token = none
      · rw [if_pos ht]; intro _; rfl
      · rw [if_neg ht]; exact ih
    | joinOk t u aid =>
      intro _
      by_cases ht : s0.token = none
      · rw [if_pos ht]; rfl
      · rw [if_neg ht]
        show s0.token.isSome = true
        cases hto : s0.token with
        | none => exact absurd hto ht
        | some t' => rfl
    | onEvent e h => exact ih
    | offEvent e h => exact ih
    | sendOk => exact ih
    | disconnect => intro hj; simp [disconnect] at hj
    | connectAndJoinOk t u aid =>
      intro _
      have h := (connectAndJoinOk_fields s0 t u aid).2.2.2
      rw [h]; rfl
    | reattach => exact ih

/-- Witness for C6: a session that has exchanged its token and then been
acknowledged into room `r1` is reachable, and its token is non-null. -/
theorem C6_witness :
    (joinAck (connectOk (mkAgent "https://x" "tok") "jwt" "bot") "r1").token.isSome = true := by
  have h1 : Reachable (mkAgent "https://x" "tok") := Reachable.init "https://x" "tok"
  have h2 : Step (mkAgent "https://x" "tok")
      (joinAck (connectOk (mkAgent "https://x" "tok") "jwt" "bot") "r1") :=
    Step.joinOk (mkAgent "https://x" "tok") "jwt" "bot" "r1"
  exact C6_token_invariant _ (Reachable.step h1 h2) rfl

end Crustocean
